import Mathlib

/-!
Shallow embedding of the `herestate` broker engine.

The repository has two closely related implementations of the same
publish/subscribe pattern:

* `src/Broker.tsx` — `useCore` keeps the pending identifiers in a React
  state array `updates` together with a `resetUpdates` flag; the notify
  effect has dependencies `[state, updates]` and iterates the raw
  `updates` array.
* `src/Subscription.tsx` (second document, the Broker-with-writer
  variant) — `useCore` collects the pending identifiers in a fresh local
  array on every render and the notify effect (dependency `[updates]`)
  iterates it.

Both share the same registry code: a plain JS object mapping a string
identifier to the array of subscriber callbacks registered under it,
`subscribe` pushing onto (and creating) per-identifier arrays and then
bootstrapping the subscriber with `ref.current`, `unsubscribe` doing an
`indexOf`/`splice` removal.

Subscriber callbacks are modelled as opaque `Nat` tokens.  Invoking a
callback is recorded as a `(token, state)` pair on a trace.  The side
effects a callback may perform during a notification pass — the ones the
specification reasons about — are unsubscriptions; they are given by an
action table `Acts` mapping each token to the `unsubscribe` calls it
performs when invoked.  The JS `for (const f of cbs)` loop iterates the
live array by index (mutations made by `splice` during the pass are
visible to the iterator), which the fuelled loop below reproduces by
re-reading the registry entry at each step: `splice` mutates the array
in place, so the alias `cbs` and the registry entry stay the same array.
-/

namespace Herestate

/-- The subscription registry: the JS object `subs.current`, an
insertion-ordered mapping from identifier to the array of callback
tokens registered under it. -/
abbrev Subs := List (String × List Nat)

/-- Property read `subs.current[id]`: `none` plays the role of
`undefined`. -/
def subsLookup : Subs → String → Option (List Nat)
  | [], _ => none
  | (k, v) :: rest, id => if k = id then some v else subsLookup rest id

/-- Property write `subs.current[id] = v` (also models an in-place
mutation of the array stored under `id`). -/
def subsSet : Subs → String → List Nat → Subs
  | [], k, v => [(k, v)]
  | (k', v') :: rest, k, v =>
    if k' = k then (k, v) :: rest else (k', v') :: subsSet rest k v

/-- One step of the `subscribe` loop (`Broker.tsx` 86-93,
`Subscription.tsx` 181-188): create the array if absent, then push. -/
def subscribeOne (subs : Subs) (id : String) (cb : Nat) : Subs :=
  match subsLookup subs id with
  | none => subsSet subs id [cb]
  | some s => subsSet subs id (s ++ [cb])

/-- The registration loop of `subscribe` over the (unscalared) id list. -/
def subscribe (ids : List String) (cb : Nat) (subs : Subs) : Subs :=
  ids.foldl (fun acc id => subscribeOne acc id cb) subs

/-- One step of the `unsubscribe` loop (`Broker.tsx` 103-111,
`Subscription.tsx` 198-206): `indexOf` the callback and `splice` it out
when found; `List.erase` removes exactly the first occurrence. -/
def unsubscribeOne (subs : Subs) (id : String) (cb : Nat) : Subs :=
  match subsLookup subs id with
  | none => subs
  | some s => if cb ∈ s then subsSet subs id (s.erase cb) else subs

/-- `unsubscribe` over the (unscalared) id list. -/
def unsubscribe (ids : List String) (cb : Nat) (subs : Subs) : Subs :=
  ids.foldl (fun acc id => unsubscribeOne acc id cb) subs

/-- Behaviour table: the `unsubscribe(ids, cb)` calls a callback token
performs when it is invoked during a notification pass. -/
abbrev Acts := Nat → List (List String × Nat)

/-- Run the unsubscriptions callback `cb` performs when invoked. -/
def applyActs (acts : Acts) (cb : Nat) (subs : Subs) : Subs :=
  (acts cb).foldl (fun acc p => unsubscribe p.1 p.2 acc) subs

/-- Passive callbacks: no registry mutation on invocation. -/
def actsNone : Acts := fun _ => []

/-- The JS array iterator of `for (const f of cbs)` (`Broker.tsx` 72-74,
`Subscription.tsx` 172-174): visit index `i` of the *current* array if
still in bounds, invoke the callback (recording `(cb, s)` and applying
its unsubscriptions), and move to `i + 1`.  `splice` only ever shortens
the array, so fuel `arr.length + 1` is enough; the registry entry is
re-read each step because `splice` mutates the aliased array in place. -/
def notifyLoop {S : Type} (acts : Acts) (id : String) (s : S) :
    Nat → Nat → Subs → Subs × List (Nat × S)
  | 0, _, subs => (subs, [])
  | fuel + 1, i, subs =>
    let arr := (subsLookup subs id).getD []
    if h : i < arr.length then
      let cb := arr.get ⟨i, h⟩
      let subs' := applyActs acts cb subs
      let r := notifyLoop acts id s fuel (i + 1) subs'
      (r.1, (cb, s) :: r.2)
    else (subs, [])

/-- Notify every callback currently registered under `id` with state `s`
(the body of the `for (const id of updates)` loop: the `undefined` check
and the inner callback loop). -/
def notify {S : Type} (acts : Acts) (id : String) (s : S) (subs : Subs) :
    Subs × List (Nat × S) :=
  match subsLookup subs id with
  | none => (subs, [])
  | some arr => notifyLoop acts id s (arr.length + 1) 0 subs

/-- The whole notification pass: `for (const id of updates)` over the raw
emission list — note there is no deduplication in the source.  Returns
the final registry and the concatenated invocation trace. -/
def notifyPass {S : Type} (acts : Acts) (s : S) (subs : Subs)
    (updates : List String) : Subs × List (Nat × S) :=
  updates.foldl (fun acc id =>
    let r := notify acts id s acc.1
    (r.1, acc.2 ++ r.2)) (subs, [])

/-- The trace a pass delivers when no callback mutates the registry:
for each emission occurrence, in order, the callbacks currently
registered under that identifier. -/
def passTrace {S : Type} (subs : Subs) (s : S) (updates : List String) :
    List (Nat × S) :=
  updates.foldr
    (fun id acc => ((subsLookup subs id).getD []).map (fun c => (c, s)) ++ acc)
    []

/-- Engine state of the `Subscription.tsx` Broker variant: the committed
snapshot `ref.current` and the registry.  Pending updates live in a
fresh local array each render, so they are not part of the persistent
state. -/
structure Core (S : Type) where
  ref : S
  subs : Subs
deriving DecidableEq

/-- Engine state of the `Broker.tsx` variant: snapshot, registry, the
React state array `updates`, and the `resetUpdates` flag. -/
structure BCore (S : Type) where
  ref : S
  subs : Subs
  updates : List String
  resetFlag : Bool
deriving DecidableEq

/-- `subscribe` on the `Subscription.tsx` core (`Subscription.tsx`
179-194): register under every id, then bootstrap the subscriber
synchronously with `sub(ref.current)` — the returned trace is the
bootstrap invocation. -/
def coreSubscribe {S : Type} (c : Core S) (ids : List String) (cb : Nat) :
    Core S × List (Nat × S) :=
  (⟨c.ref, subscribe ids cb c.subs⟩, [(cb, c.ref)])

/-- `subscribe` on the `Broker.tsx` core (`Broker.tsx` 84-99). -/
def bSubscribe {S : Type} (c : BCore S) (ids : List String) (cb : Nat) :
    BCore S × List (Nat × S) :=
  (⟨c.ref, subscribe ids cb c.subs, c.updates, c.resetFlag⟩, [(cb, c.ref)])

/-- One transition of the `Subscription.tsx` Broker variant
(`Subscription.tsx` 145-215): the render collects `emits` into a fresh
local array, the first effect syncs `ref.current = state`, the second
effect (which runs on every render, its dependency being the fresh
array) runs the notification pass over exactly this transition's
emissions. -/
def sbTransition {S : Type} (acts : Acts) (c : Core S) (s : S)
    (emits : List String) : Core S × List (Nat × S) :=
  let r := notifyPass acts s c.subs emits
  (⟨s, r.1⟩, r.2)

/-- One `update(id)` call in `Broker.tsx` (lines 50-57): when the
`resetUpdates` flag is set the pending array is replaced by `[id]` and
the flag cleared, otherwise `id` is appended. -/
def applyEmit (u : List String × Bool) (id : String) : List String × Bool :=
  if u.2 then ([id], false) else (u.1 ++ [id], u.2)

/-- One state-changing transition of the `Broker.tsx` variant
(`Broker.tsx` 42-79): the emissions fold into the persistent `updates`
state through `applyEmit`; the effect (dependencies `[state, updates]`,
so it runs — the state changed) sets `ref.current = state` and, whenever
the pending array is non-empty, runs the notification pass over it and
arms the `resetUpdates` flag.  Note the pending array is *not* cleared
by the pass itself. -/
def brokerTransition {S : Type} (acts : Acts) (c : BCore S) (s : S)
    (emits : List String) : BCore S × List (Nat × S) :=
  let p := emits.foldl applyEmit (c.updates, c.resetFlag)
  if p.1.isEmpty then
    (⟨s, c.subs, p.1, p.2⟩, [])
  else
    let r := notifyPass acts s c.subs p.1
    (⟨s, r.1, p.1, true⟩, r.2)

/-- A `Broker.tsx` transition whose state-producing hook may throw
(`Broker.tsx` 59-79).  The hook runs during render; if it throws, React
abandons the render before any effect runs: neither the `ref` sync nor
the notification effect executes, state updates scheduled by the
discarded render are dropped, and the exception propagates to the
caller.  `emitted` is the prefix of emissions recorded before the
throw. -/
def brokerRun {S : Type} (acts : Acts) (c : BCore S) (emitted : List String)
    (result : Except Unit S) : BCore S × List (Nat × S) × Option Unit :=
  match result with
  | .error e => (c, [], some e)
  | .ok s =>
    let r := brokerTransition acts c s emitted
    (r.1, r.2, none)

/-- A writer value: a JS object with string keys in insertion order,
field values modelled as opaque `Nat` tokens (compared by identity, as
`useMemo`'s dependency comparison does). -/
abbrev Writer := List (String × Nat)

/-- `objectUnpack` (`Subscription.tsx` 104-112): one `for...in` pass
collecting the keys and the values, returned as `[...keys, ...values]`. -/
def objectUnpack (obj : Writer) : List (String ⊕ Nat) :=
  obj.map (fun p => Sum.inl p.1) ++ obj.map (fun p => Sum.inr p.2)

/-- A `useMemo` cell: the dependency array of the last computation and
the cached value. -/
structure WMemo where
  deps : List (String ⊕ Nat)
  val : Writer
deriving DecidableEq

/-- `useMemo(() => writer, [...objectUnpack(writer)])`
(`Subscription.tsx` 212): if the new dependency array equals the stored
one element-wise the cached value is returned unchanged (`false` = not
recomputed), otherwise the new writer is cached (`true` = recomputed). -/
def writerMemoStep (m : WMemo) (w : Writer) : WMemo × Bool :=
  if objectUnpack w = m.deps then (m, false) else (⟨objectUnpack w, w⟩, true)

/-- First-match field lookup on a writer object. -/
def lookupField : Writer → String → Option Nat
  | [], _ => none
  | (k, v) :: rest, key => if k = key then some v else lookupField rest key

/-- Decidable shallow per-field comparison: same field-name set and, for
every field name, the same value. -/
def sameFieldsB (w1 w2 : Writer) : Bool :=
  (w1.map Prod.fst).all (fun k => lookupField w1 k == lookupField w2 k) &&
  (w2.map Prod.fst).all (fun k => lookupField w1 k == lookupField w2 k)

/-! ### Registry lemmas -/

theorem subsLookup_subsSet (subs : Subs) (k : String) (v : List Nat)
    (id : String) :
    subsLookup (subsSet subs k v) id =
      if id = k then some v else subsLookup subs id := by
  induction subs with
  | nil =>
    by_cases h : id = k
    · simp [subsSet, subsLookup, h]
    · simp [subsSet, subsLookup, h, Ne.symm h]
  | cons hd rest ih =>
    obtain ⟨k', v'⟩ := hd
    by_cases hk : k' = k
    · subst hk
      by_cases h2 : id = k'
      · simp [subsSet, subsLookup, h2]
      · simp [subsSet, subsLookup, h2, Ne.symm h2]
    · by_cases h2 : id = k'
      · subst h2
        simp [subsSet, subsLookup, hk, Ne.symm hk]
      · simp [subsSet, subsLookup, hk, Ne.symm h2, ih]

theorem subscribeOne_lookup (subs : Subs) (a : String) (cb : Nat)
    (id : String) :
    subsLookup (subscribeOne subs a cb) id =
      if id = a then some ((subsLookup subs a).getD [] ++ [cb])
      else subsLookup subs id := by
  unfold subscribeOne
  cases h : subsLookup subs a <;> simp [subsLookup_subsSet, h]

theorem subscribe_lookup (ids : List String) (cb : Nat) (subs : Subs)
    (id : String) :
    (subsLookup (subscribe ids cb subs) id).getD [] =
      (subsLookup subs id).getD [] ++ List.replicate (ids.count id) cb := by
  induction ids generalizing subs with
  | nil => simp [subscribe]
  | cons a rest ih =>
    show (subsLookup (subscribe rest cb (subscribeOne subs a cb)) id).getD []
      = _
    rw [ih]
    by_cases h : id = a
    · subst h
      simp [subscribeOne_lookup, List.count_cons, List.replicate_succ,
        List.append_assoc]
    · simp [subscribeOne_lookup, h, List.count_cons, Ne.symm h]

theorem unsubscribeOne_not_mem (subs : Subs) (id : String) (cb : Nat)
    (h : cb ∉ (subsLookup subs id).getD []) :
    unsubscribeOne subs id cb = subs := by
  unfold unsubscribeOne
  cases hl : subsLookup subs id with
  | none => rfl
  | some s =>
    rw [hl] at h
    simp only [Option.getD_some] at h
    simp [h]

/-- Registry inclusion: every per-identifier callback array of `a` is
contained in the corresponding array of `b`.  Unsubscription only ever
removes callbacks, so every operation performed during a notification
pass refines the registry in this order. -/
def subsLE (a b : Subs) : Prop :=
  ∀ id, ((subsLookup a id).getD []) ⊆ ((subsLookup b id).getD [])

theorem subsLE_refl (a : Subs) : subsLE a a := fun _ => List.Subset.refl _

theorem subsLE_trans {a b c : Subs} (h1 : subsLE a b) (h2 : subsLE b c) :
    subsLE a c :=
  fun id => (h1 id).trans (h2 id)

theorem unsubscribeOne_le (subs : Subs) (id : String) (cb : Nat) :
    subsLE (unsubscribeOne subs id cb) subs := by
  unfold unsubscribeOne
  cases hl : subsLookup subs id with
  | none => exact subsLE_refl _
  | some s =>
    by_cases hm : cb ∈ s
    · simp only [hm, if_true]
      intro id'
      rw [subsLookup_subsSet]
      by_cases h2 : id' = id
      · subst h2
        rw [if_pos rfl, hl]
        simp only [Option.getD_some]
        exact List.erase_subset cb s
      · rw [if_neg h2]
        exact List.Subset.refl _
    · simp only [hm, if_false]
      exact subsLE_refl _

theorem unsubscribe_le (ids : List String) (cb : Nat) (subs : Subs) :
    subsLE (unsubscribe ids cb subs) subs := by
  induction ids generalizing subs with
  | nil => exact subsLE_refl _
  | cons a rest ih =>
    exact subsLE_trans (ih (unsubscribeOne subs a cb))
      (unsubscribeOne_le subs a cb)

theorem applyActs_le (acts : Acts) (cb : Nat) (subs : Subs) :
    subsLE (applyActs acts cb subs) subs := by
  unfold applyActs
  generalize acts cb = l
  induction l generalizing subs with
  | nil => exact subsLE_refl _
  | cons p rest ih =>
    exact subsLE_trans (ih (unsubscribe p.1 p.2 subs))
      (unsubscribe_le p.1 p.2 subs)

/-! ### Notification-pass lemmas -/

theorem applyActs_passive (acts : Acts) (hacts : ∀ c, acts c = [])
    (cb : Nat) (subs : Subs) : applyActs acts cb subs = subs := by
  simp [applyActs, hacts]

theorem notifyLoop_le {S : Type} (acts : Acts) (id : String) (s : S) :
    ∀ (fuel i : Nat) (subs : Subs),
      subsLE (notifyLoop acts id s fuel i subs).1 subs := by
  intro fuel
  induction fuel with
  | zero => intro i subs; exact subsLE_refl _
  | succ n ih =>
    intro i subs
    simp only [notifyLoop]
    split
    · exact subsLE_trans (ih _ _) (applyActs_le _ _ _)
    · exact subsLE_refl _

theorem mem_notifyLoop_trace {S : Type} (acts : Acts) (id : String) (s : S) :
    ∀ (fuel i : Nat) (subs : Subs) (c : Nat) (x : S),
      (c, x) ∈ (notifyLoop acts id s fuel i subs).2 →
        x = s ∧ c ∈ (subsLookup subs id).getD [] := by
  intro fuel
  induction fuel with
  | zero => intro i subs c x h; simp [notifyLoop] at h
  | succ n ih =>
    intro i subs c x h
    simp only [notifyLoop] at h
    split at h
    · simp only [List.mem_cons] at h
      rcases h with h | h
      · rw [Prod.mk.injEq] at h
        refine ⟨h.2, ?_⟩
        rw [h.1]
        exact List.get_mem _ _ _
      · have h2 := ih _ _ _ _ h
        exact ⟨h2.1, applyActs_le acts _ subs id h2.2⟩
    · simp at h

theorem notifyLoop_passive {S : Type} (acts : Acts) (id : String) (s : S)
    (hacts : ∀ c, acts c = []) :
    ∀ (fuel i : Nat) (subs : Subs),
      ((subsLookup subs id).getD []).length ≤ i + fuel →
      notifyLoop acts id s fuel i subs =
        (subs, ((((subsLookup subs id).getD []).drop i)).map
          (fun c => (c, s))) := by
  intro fuel
  induction fuel with
  | zero =>
    intro i subs hlen
    rw [List.drop_eq_nil_of_le (by omega)]
    simp [notifyLoop]
  | succ n ih =>
    intro i subs hlen
    simp only [notifyLoop]
    by_cases h : i < ((subsLookup subs id).getD []).length
    · rw [dif_pos h, applyActs_passive acts hacts,
        ih (i + 1) subs (by omega), List.drop_eq_getElem_cons h,
        List.map_cons, List.get_eq_getElem]
    · rw [dif_neg h, List.drop_eq_nil_of_le (by omega)]
      simp

theorem unsubscribeOne_lookup_other (subs : Subs) (id id' : String)
    (cb : Nat) (h : id ≠ id') :
    subsLookup (unsubscribeOne subs id' cb) id = subsLookup subs id := by
  unfold unsubscribeOne
  cases hl : subsLookup subs id' with
  | none => rfl
  | some s =>
    by_cases hm : cb ∈ s
    · simp [hm, subsLookup_subsSet, h]
    · simp [hm]

theorem unsubscribe_lookup_avoid (ids : List String) (cb : Nat)
    (subs : Subs) (id : String) (h : id ∉ ids) :
    subsLookup (unsubscribe ids cb subs) id = subsLookup subs id := by
  induction ids generalizing subs with
  | nil => rfl
  | cons a rest ih =>
    simp only [List.mem_cons, not_or] at h
    show subsLookup (unsubscribe rest cb (unsubscribeOne subs a cb)) id = _
    rw [ih (unsubscribeOne subs a cb) h.2,
      unsubscribeOne_lookup_other subs id a cb h.1]

theorem applyActs_lookup_avoid (acts : Acts) (id : String) (cb : Nat)
    (subs : Subs) (h : ∀ p ∈ acts cb, id ∉ p.1) :
    subsLookup (applyActs acts cb subs) id = subsLookup subs id := by
  unfold applyActs
  generalize hl : acts cb = l
  rw [hl] at h
  clear hl
  revert h
  induction l generalizing subs with
  | nil => intro _; rfl
  | cons p rest ih =>
    intro h
    show subsLookup
      (rest.foldl (fun acc q => unsubscribe q.1 q.2 acc)
        (unsubscribe p.1 p.2 subs)) id = _
    rw [ih (unsubscribe p.1 p.2 subs) (fun q hq => h q (List.mem_cons_of_mem p hq)),
      unsubscribe_lookup_avoid p.1 p.2 subs id (h p (List.mem_cons_self p rest))]

theorem notifyLoop_avoid {S : Type} (acts : Acts) (id : String) (s : S)
    (hacts : ∀ c, ∀ p ∈ acts c, id ∉ p.1) :
    ∀ (fuel i : Nat) (subs : Subs),
      ((subsLookup subs id).getD []).length ≤ i + fuel →
      (notifyLoop acts id s fuel i subs).2 =
        (((subsLookup subs id).getD []).drop i).map (fun c => (c, s)) := by
  intro fuel
  induction fuel with
  | zero =>
    intro i subs hlen
    rw [List.drop_eq_nil_of_le (by omega)]
    simp [notifyLoop]
  | succ n ih =>
    intro i subs hlen
    simp only [notifyLoop]
    by_cases h : i < ((subsLookup subs id).getD []).length
    · rw [dif_pos h]
      have hpres :
          subsLookup (applyActs acts
            (((subsLookup subs id).getD []).get ⟨i, h⟩) subs) id
          = subsLookup subs id :=
        applyActs_lookup_avoid acts id _ subs (hacts _)
      have hrec := ih (i + 1)
        (applyActs acts (((subsLookup subs id).getD []).get ⟨i, h⟩) subs)
        (by rw [hpres]; omega)
      rw [hpres] at hrec
      simp only [hrec]
      rw [List.drop_eq_getElem_cons h, List.map_cons, List.get_eq_getElem]
    · rw [dif_neg h, List.drop_eq_nil_of_le (by omega)]
      simp

theorem notify_le {S : Type} (acts : Acts) (id : String) (s : S)
    (subs : Subs) : subsLE (notify acts id s subs).1 subs := by
  unfold notify
  cases subsLookup subs id
  · exact subsLE_refl _
  · exact notifyLoop_le acts id s _ 0 subs

theorem mem_notify_trace {S : Type} (acts : Acts) (id : String) (s : S)
    (subs : Subs) (c : Nat) (x : S) :
    (c, x) ∈ (notify acts id s subs).2 →
      x = s ∧ c ∈ (subsLookup subs id).getD [] := by
  unfold notify
  cases h : subsLookup subs id with
  | none => intro hm; simp at hm
  | some arr =>
    intro hm
    have h2 := mem_notifyLoop_trace acts id s (arr.length + 1) 0 subs c x hm
    rw [h] at h2
    exact h2

theorem notify_passive {S : Type} (acts : Acts) (id : String) (s : S)
    (subs : Subs) (hacts : ∀ c, acts c = []) :
    notify acts id s subs =
      (subs, ((subsLookup subs id).getD []).map (fun c => (c, s))) := by
  unfold notify
  cases harr : subsLookup subs id with
  | none => simp
  | some arr =>
    show notifyLoop acts id s (arr.length + 1) 0 subs = _
    rw [notifyLoop_passive acts id s hacts (arr.length + 1) 0 subs
      (by rw [harr]; simp)]
    rw [harr]
    simp

theorem notify_avoid {S : Type} (acts : Acts) (id : String) (s : S)
    (subs : Subs) (arr : List Nat)
    (hacts : ∀ c, ∀ p ∈ acts c, id ∉ p.1)
    (harr : subsLookup subs id = some arr) :
    (notify acts id s subs).2 = arr.map (fun c => (c, s)) := by
  unfold notify
  rw [harr]
  have h2 := notifyLoop_avoid acts id s hacts (arr.length + 1) 0 subs
    (by rw [harr]; simp)
  rw [harr] at h2
  simp only [Option.getD_some, List.drop_zero] at h2
  exact h2

theorem notifyPass_go {S : Type} (acts : Acts) (s : S) :
    ∀ (updates : List String) (subs : Subs) (acc : List (Nat × S)),
      updates.foldl (fun acc2 id =>
          let r := notify acts id s acc2.1
          (r.1, acc2.2 ++ r.2)) (subs, acc)
      = ((notifyPass acts s subs updates).1,
          acc ++ (notifyPass acts s subs updates).2) := by
  intro updates
  induction updates with
  | nil => intro subs acc; simp [notifyPass]
  | cons a rest ih =>
    intro subs acc
    simp only [notifyPass, List.foldl_cons]
    rw [ih ((notify acts a s subs).1) (acc ++ (notify acts a s subs).2),
      ih ((notify acts a s subs).1) ([] ++ (notify acts a s subs).2)]
    simp [List.append_assoc]

theorem notifyPass_cons {S : Type} (acts : Acts) (s : S) (subs : Subs)
    (a : String) (rest : List String) :
    notifyPass acts s subs (a :: rest) =
      ((notifyPass acts s (notify acts a s subs).1 rest).1,
        (notify acts a s subs).2 ++
          (notifyPass acts s (notify acts a s subs).1 rest).2) := by
  simp only [notifyPass, List.foldl_cons]
  rw [notifyPass_go acts s rest ((notify acts a s subs).1)
    ([] ++ (notify acts a s subs).2)]
  simp [notifyPass]

theorem notifyPass_le {S : Type} (acts : Acts) (s : S) :
    ∀ (updates : List String) (subs : Subs),
      subsLE (notifyPass acts s subs updates).1 subs := by
  intro updates
  induction updates with
  | nil => intro subs; exact subsLE_refl _
  | cons a rest ih =>
    intro subs
    rw [notifyPass_cons]
    exact subsLE_trans (ih _) (notify_le acts a s subs)

theorem mem_notifyPass_trace {S : Type} (acts : Acts) (s : S) :
    ∀ (updates : List String) (subs : Subs) (c : Nat) (x : S),
      (c, x) ∈ (notifyPass acts s subs updates).2 →
        x = s ∧ ∃ id ∈ updates, c ∈ (subsLookup subs id).getD [] := by
  intro updates
  induction updates with
  | nil => intro subs c x h; simp [notifyPass] at h
  | cons a rest ih =>
    intro subs c x h
    rw [notifyPass_cons] at h
    simp only [List.mem_append] at h
    rcases h with h | h
    · have h2 := mem_notify_trace acts a s subs c x h
      exact ⟨h2.1, a, List.mem_cons_self a rest, h2.2⟩
    · have h2 := ih _ c x h
      refine ⟨h2.1, ?_⟩
      obtain ⟨id0, hid0, hc⟩ := h2.2
      exact ⟨id0, List.mem_cons_of_mem a hid0, notify_le acts a s subs id0 hc⟩

theorem notifyPass_passive {S : Type} (acts : Acts) (s : S)
    (hacts : ∀ c, acts c = []) :
    ∀ (updates : List String) (subs : Subs),
      notifyPass acts s subs updates = (subs, passTrace subs s updates) := by
  intro updates
  induction updates with
  | nil => intro subs; simp [notifyPass, passTrace]
  | cons a rest ih =>
    intro subs
    rw [notifyPass_cons, notify_passive acts a s subs hacts]
    rw [ih subs]
    simp [passTrace]

/-! ### Engine-level lemmas -/

theorem foldl_applyEmit_false :
    ∀ (emits : List String) (u : List String),
      emits.foldl applyEmit (u, false) = (u ++ emits, false) := by
  intro emits
  induction emits with
  | nil => intro u; simp
  | cons e rest ih =>
    intro u
    show rest.foldl applyEmit (applyEmit (u, false) e) = _
    rw [show applyEmit (u, false) e = (u ++ [e], false) from rfl, ih]
    simp

theorem foldl_applyEmit_true (emits : List String) (u : List String)
    (hne : emits ≠ []) :
    emits.foldl applyEmit (u, true) = (emits, false) := by
  cases emits with
  | nil => exact absurd rfl hne
  | cons e rest =>
    show rest.foldl applyEmit (applyEmit (u, true) e) = _
    rw [show applyEmit (u, true) e = ([e], false) from rfl,
      foldl_applyEmit_false rest [e]]
    simp

/-- A `Broker.tsx` core is *clean* when either the transition emits
something with the reset flag armed (the first emission replaces the
pending array) or the pending array is empty: then the pass covers
exactly this transition's emissions. -/
theorem brokerTransition_trace_clean {S : Type} (acts : Acts) (c : BCore S)
    (s : S) (emits : List String)
    (hclean : (emits ≠ [] ∧ c.resetFlag = true) ∨ c.updates = []) :
    (brokerTransition acts c s emits).2
      = (notifyPass acts s c.subs emits).2 := by
  by_cases he : emits = []
  · subst he
    rcases hclean with ⟨hne, -⟩ | hupd
    · exact absurd rfl hne
    · simp only [brokerTransition, List.foldl_nil, hupd]
      simp [notifyPass]
  · have hfold : emits.foldl applyEmit (c.updates, c.resetFlag)
        = (emits, false) := by
      rcases hclean with ⟨-, hflag⟩ | hupd
      · rw [hflag]
        exact foldl_applyEmit_true emits c.updates he
      · rw [hupd]
        cases hf : c.resetFlag
        · rw [foldl_applyEmit_false emits []]
          simp
        · exact foldl_applyEmit_true emits [] he
    simp only [brokerTransition, hfold]
    rw [if_neg (by simp [he])]

/-- Every invocation a `Broker.tsx` transition delivers goes to a
callback registered (at the start of the pass) under some identifier. -/
theorem mem_brokerTransition_trace {S : Type} (acts : Acts) (c : BCore S)
    (s : S) (emits : List String) (cbk : Nat) (x : S)
    (hx : (cbk, x) ∈ (brokerTransition acts c s emits).2) :
    x = s ∧ ∃ id, cbk ∈ (subsLookup c.subs id).getD [] := by
  simp only [brokerTransition] at hx
  split at hx
  · simp at hx
  · have h2 := mem_notifyPass_trace acts s _ c.subs cbk x hx
    obtain ⟨hxs, id0, -, hmem⟩ := h2
    exact ⟨hxs, id0, hmem⟩

/-- The registry entry for `id` after `unsubscribeOne subs id cb` is the
old entry with the first occurrence of `cb` erased. -/
theorem unsubscribeOne_lookup_self (subs : Subs) (id : String) (cb : Nat) :
    (subsLookup (unsubscribeOne subs id cb) id).getD []
      = ((subsLookup subs id).getD []).erase cb := by
  unfold unsubscribeOne
  cases hl : subsLookup subs id with
  | none =>
    rw [hl]
    simp
  | some s =>
    show (subsLookup (if cb ∈ s then subsSet subs id (s.erase cb) else subs)
      id).getD [] = _
    by_cases hm : cb ∈ s
    · simp [hm, subsLookup_subsSet, hl]
    · rw [if_neg hm, hl]
      simp [List.erase_of_not_mem hm]

/-! ### Writer lemmas -/

theorem writer_eq_of_maps :
    ∀ (w1 w2 : Writer), w1.map Prod.fst = w2.map Prod.fst →
      w1.map Prod.snd = w2.map Prod.snd → w1 = w2 := by
  intro w1
  induction w1 with
  | nil =>
    intro w2 h1 _
    cases w2 with
    | nil => rfl
    | cons q rest2 => simp at h1
  | cons p rest ih =>
    intro w2 h1 h2
    cases w2 with
    | nil => simp at h1
    | cons q rest2 =>
      obtain ⟨pk, pv⟩ := p
      obtain ⟨qk, qv⟩ := q
      simp only [List.map_cons, List.cons.injEq] at h1 h2
      rw [h1.1, h2.1, ih rest2 h1.2 h2.2]

theorem objectUnpack_inj (w1 w2 : Writer)
    (h : objectUnpack w1 = objectUnpack w2) : w1 = w2 := by
  unfold objectUnpack at h
  have hlen : w1.length = w2.length := by
    have := congrArg List.length h
    simp at this
    omega
  have hsplit := List.append_inj h (by simp [hlen])
  have hfst : w1.map Prod.fst = w2.map Prod.fst := by
    have h1 := hsplit.1
    rw [show w1.map (fun p => (Sum.inl p.1 : String ⊕ Nat))
        = (w1.map Prod.fst).map Sum.inl from by simp,
      show w2.map (fun p => (Sum.inl p.1 : String ⊕ Nat))
        = (w2.map Prod.fst).map Sum.inl from by simp] at h1
    exact List.map_injective_iff.mpr Sum.inl_injective h1
  have hsnd : w1.map Prod.snd = w2.map Prod.snd := by
    have h2 := hsplit.2
    rw [show w1.map (fun p => (Sum.inr p.2 : String ⊕ Nat))
        = (w1.map Prod.snd).map Sum.inr from by simp,
      show w2.map (fun p => (Sum.inr p.2 : String ⊕ Nat))
        = (w2.map Prod.snd).map Sum.inr from by simp] at h2
    exact List.map_injective_iff.mpr Sum.inr_injective h2
  exact writer_eq_of_maps w1 w2 hfst hsnd

/-! ### Claim C1 — deduplication of emitted identifiers -/

/-- C1 counterexample: one callback (token `0`) is registered under
identifier `"a"` and a transition emits `"a"` twice; the notification
pass invokes the callback twice, not once — both `useCore` notify loops
iterate the raw emission list, so emitted identifiers are *not*
deduplicated before dispatch. -/
theorem c1_counterexample :
    (notifyPass actsNone (5 : Nat) [(("a"), [0])] [("a"), ("a")]).2
      = [(0, 5), (0, 5)] := by decide

/-- C1 (amended): when the invoked callbacks do not mutate the registry,
the notification pass delivers, for each occurrence of an identifier in
the emission list in order, one invocation to every callback registered
under that identifier — `N` emissions of the same identifier yield `N`
invocations per subscriber for that transition, not one. -/
theorem c1_no_dedup {S : Type} (acts : Acts) (s : S) (subs : Subs)
    (updates : List String) (hacts : ∀ c, acts c = []) :
    (notifyPass acts s subs updates).2 = passTrace subs s updates := by
  rw [notifyPass_passive acts s hacts updates subs]

/-- C1 witness: the amended theorem applied to a registry with tokens
`0, 1` under `"a"` and the emission list `["a", "a"]`: each subscriber
is invoked twice. -/
theorem c1_no_dedup_witness :
    (notifyPass actsNone (5 : Nat) [(("a"), [0, 1])] [("a"), ("a")]).2
      = [(0, 5), (1, 5), (0, 5), (1, 5)] :=
  (c1_no_dedup actsNone 5 [(("a"), [0, 1])] [("a"), ("a")]
    (fun _ => rfl)).trans (by decide)

/-! ### Claim C2 — unregistration during a notification pass -/

/-- Behaviour table for the C2 counterexample: callback `0` unregisters
itself from `"a"` when invoked. -/
def actsSelf : Acts := fun c => if c = 0 then [([("a" : String)], 0)] else []

/-- Behaviour table for the C2 witness: callback `0` unregisters
callback `1` from `"b"` (a different identifier) when invoked. -/
def actsOther : Acts := fun c => if c = 0 then [([("b" : String)], 1)] else []

/-- C2 counterexample: callbacks `0, 1` are registered under `"a"` at
the start of the pass; callback `0` unregisters itself (under the same
identifier) during its invocation.  The `splice` shifts callback `1`
into the vacated index of the live array, the iterator moves past it,
and callback `1` — registered at the start of the pass and not yet
invoked — is never invoked: the trace is only `[(0, 7)]`. -/
theorem c2_counterexample :
    notify actsSelf ("a") (7 : Nat) [(("a"), [0, 1])]
      = ([(("a"), [1])], [(0, 7)]) := by decide

/-- C2 (amended): the notify loop iterates the live callback array, not
a snapshot.  If every unregistration performed by invoked callbacks
targets identifiers other than the one being notified, each callback
registered under it at the start of the pass is still invoked exactly
once, in registration order; an unregistration under the notified
identifier itself shifts the live array and skips the callback just
after the removed index (see the counterexample). -/
theorem c2_unsub_other_id_safe {S : Type} (acts : Acts) (id : String)
    (s : S) (subs : Subs) (arr : List Nat)
    (hacts : ∀ c, ∀ p ∈ acts c, id ∉ p.1)
    (harr : subsLookup subs id = some arr) :
    (notify acts id s subs).2 = arr.map (fun c => (c, s)) :=
  notify_avoid acts id s subs arr hacts harr

/-- C2 witness: callback `0` unregisters callback `1` under `"b"` while
`"a"` is being notified; both callbacks registered under `"a"` are still
invoked exactly once, in order. -/
theorem c2_witness :
    (notify actsOther ("a") (9 : Nat) [(("a"), [0, 1]), (("b"), [1])]).2
      = [(0, 9), (1, 9)] :=
  (c2_unsub_other_id_safe actsOther ("a") 9 [(("a"), [0, 1]), (("b"), [1])]
    [0, 1]
    (fun c p hp => by
      by_cases hc : c = 0
      · subst hc
        simp [actsOther] at hp
        subst hp
        decide
      · simp [actsOther, hc] at hp)
    rfl).trans (by decide)

/-! ### Claim C3 — clearing of Pending Updates -/

/-- C3 counterexample (`Broker.tsx` variant): after a transition that
emitted `"a"` and notified, a second transition changes the state to `2`
and emits nothing; the notification effect re-runs (its `state`
dependency changed) over the stale pending array `["a"]` and callback
`0` is notified again — Pending Updates was not cleared after the first
transition's pass. -/
theorem c3_counterexample :
    (brokerTransition actsNone
      (brokerTransition actsNone
        (⟨0, [(("a"), [0])], [], false⟩ : BCore Nat) 1 [("a")]).1
      2 []).2 = [(0, 2)] := by decide

/-- C3 (amended): only the `Subscription.tsx` variant collects pending
updates per transition (a transition emitting nothing notifies nobody
and just commits the snapshot).  In the `Broker.tsx` variant the pending
array survives the pass — it is replaced only at the first emission of a
later transition — so a state-changing transition with no emissions and
a non-empty pending array re-runs the notification pass over the stale
identifiers with the new state. -/
theorem c3_pending_lazy_reset {S : Type} (acts : Acts) (c : Core S)
    (cB : BCore S) (s t : S) (hacts : ∀ cb, acts cb = [])
    (hne : cB.updates ≠ []) :
    sbTransition acts c s [] = (⟨s, c.subs⟩, []) ∧
    (brokerTransition acts cB t []).2 = passTrace cB.subs t cB.updates := by
  constructor
  · rfl
  · simp only [brokerTransition, List.foldl_nil]
    rw [if_neg (by simp [hne])]
    rw [notifyPass_passive acts t hacts cB.updates cB.subs]

/-- C3 witness: a core whose pending array still holds `["a"]` from the
previous transition; a zero-emission transition to state `2` delivers
`[(0, 2)]`, while the `Subscription.tsx` variant delivers nothing. -/
theorem c3_witness :
    (brokerTransition actsNone
      (⟨1, [(("a"), [0])], [("a")], true⟩ : BCore Nat) 2 []).2 = [(0, 2)] ∧
    sbTransition actsNone (⟨1, [(("a"), [0])]⟩ : Core Nat) 2 []
      = (⟨2, [(("a"), [0])]⟩, []) := by
  have h := c3_pending_lazy_reset actsNone
    (⟨1, [(("a"), [0])]⟩ : Core Nat)
    (⟨1, [(("a"), [0])], [("a")], true⟩ : BCore Nat) 2 2
    (fun _ => rfl) (by decide)
  exact ⟨h.2.trans (by decide), h.1⟩

/-! ### Claim C4 — subscribe registers and bootstraps -/

/-- C4: `subscribe` with a non-empty identifier list appends the
callback to each listed identifier's array (creating the array if
absent; one occurrence per occurrence of the identifier in the list) and
invokes the callback synchronously exactly once with the current
committed snapshot — the invocation trace returned by the call is
exactly `[(cb, ref)]`, produced before any later transition runs. -/
theorem c4_subscribe_bootstrap {S : Type} (c : Core S) (ids : List String)
    (cb : Nat) (hne : ids ≠ []) :
    (coreSubscribe c ids cb).2 = [(cb, c.ref)] ∧
    ∀ id, (subsLookup (coreSubscribe c ids cb).1.subs id).getD []
      = (subsLookup c.subs id).getD [] ++ List.replicate (ids.count id) cb :=
  ⟨rfl, fun id => subscribe_lookup ids cb c.subs id⟩

/-- C4 witness: subscribing token `3` under `["a", "b"]` on an empty
registry bootstraps it once with the snapshot `0` and registers it under
`"a"`. -/
theorem c4_witness :
    (coreSubscribe (⟨0, []⟩ : Core Nat) [("a"), ("b")] 3).2 = [(3, 0)] ∧
    (subsLookup (coreSubscribe (⟨0, []⟩ : Core Nat) [("a"), ("b")] 3).1.subs
      ("a")).getD [] = [3] := by
  have h := c4_subscribe_bootstrap (⟨0, []⟩ : Core Nat) [("a"), ("b")] 3
    (by decide)
  exact ⟨h.1, (h.2 ("a")).trans (by decide)⟩

/-! ### Claim C5 — isolation of untouched identifiers -/

/-- C5 counterexample (`Broker.tsx` variant): the second transition
emits the empty identifier set, so every subscriber is registered only
under identifiers disjoint from it; yet callback `3`, registered only
under `"b"`, is invoked during that transition's pass because the stale
pending array `["b"]` from the previous transition is replayed. -/
theorem c5_counterexample :
    (brokerTransition actsNone
      (brokerTransition actsNone
        (⟨20, [(("b"), [3])], [], false⟩ : BCore Nat) 21 [("b")]).1
      22 []).2 = [(3, 22)] := by decide

/-- C5 (amended): a callback not registered under any emitted identifier
receives no invocation during the transition's pass — unconditionally in
the `Subscription.tsx` variant, and in the `Broker.tsx` variant provided
the transition's pass covers its own emissions (a non-empty emission
list with the reset flag armed, or an empty pending array); a zero-
emission `Broker.tsx` transition with a stale pending array can still
invoke such a callback (see the counterexample). -/
theorem c5_isolation {S : Type} (acts : Acts) (c : Core S) (cB : BCore S)
    (s t : S) (emits : List String) (cb : Nat)
    (hdisj : ∀ id ∈ emits, cb ∉ (subsLookup c.subs id).getD [])
    (hdisjB : ∀ id ∈ emits, cb ∉ (subsLookup cB.subs id).getD [])
    (hclean : (emits ≠ [] ∧ cB.resetFlag = true) ∨ cB.updates = []) :
    (∀ x, (cb, x) ∉ (sbTransition acts c s emits).2) ∧
    (∀ x, (cb, x) ∉ (brokerTransition acts cB t emits).2) := by
  constructor
  · intro x hx
    obtain ⟨-, id0, hid0, hmem⟩ :=
      mem_notifyPass_trace acts s emits c.subs cb x hx
    exact hdisj id0 hid0 hmem
  · intro x hx
    rw [brokerTransition_trace_clean acts cB t emits hclean] at hx
    obtain ⟨-, id0, hid0, hmem⟩ :=
      mem_notifyPass_trace acts t emits cB.subs cb x hx
    exact hdisjB id0 hid0 hmem

/-- C5 witness: callback `9` is registered only under `"c"`; a clean
transition emitting `["a"]` does not invoke it in either variant. -/
theorem c5_witness :
    (9, 5) ∉ (sbTransition actsNone (⟨0, [(("c"), [9])]⟩ : Core Nat)
      5 [("a")]).2 ∧
    (9, 5) ∉ (brokerTransition actsNone
      (⟨0, [(("c"), [9])], [], true⟩ : BCore Nat) 5 [("a")]).2 := by
  have h := c5_isolation actsNone (⟨0, [(("c"), [9])]⟩ : Core Nat)
    (⟨0, [(("c"), [9])], [], true⟩ : BCore Nat) 5 5 [("a")] 9
    (by decide) (by decide) (Or.inl ⟨by decide, rfl⟩)
  exact ⟨h.1 5, h.2 5⟩

/-! ### Claim C6 — zero-emission transitions -/

/-- C6 counterexample (`Broker.tsx` variant): the second transition
emits zero identifiers, yet callback `4` is invoked (with the new state
`12`) because the stale pending array from the previous transition is
replayed — so a zero-emission transition does not always notify
nobody. -/
theorem c6_counterexample :
    (brokerTransition actsNone
      (brokerTransition actsNone
        (⟨10, [(("a"), [4])], [], false⟩ : BCore Nat) 11 [("a")]).1
      12 []).2 = [(4, 12)] := by decide

/-- C6 (amended): a `Broker.tsx` transition that emits zero identifiers
invokes no subscriber callback *provided the pending array is empty*;
the snapshot reference is still updated to the new state, so a
subscriber registering afterwards is bootstrapped with the new value.
(With a stale non-empty pending array the pass re-runs; see the
counterexample.) -/
theorem c6_no_emit_still_commits {S : Type} (acts : Acts) (c : BCore S)
    (s : S) (ids : List String) (cb : Nat) (h : c.updates = []) :
    brokerTransition acts c s [] = (⟨s, c.subs, [], c.resetFlag⟩, []) ∧
    (bSubscribe (brokerTransition acts c s []).1 ids cb).2 = [(cb, s)] := by
  have h1 : brokerTransition acts c s []
      = (⟨s, c.subs, [], c.resetFlag⟩, []) := by
    simp only [brokerTransition, List.foldl_nil, h]
    simp
  refine ⟨h1, ?_⟩
  rw [h1]
  rfl

/-- C6 witness: a zero-emission transition on a core with empty pending
array delivers no invocation, commits snapshot `8`, and a subscriber
registering afterwards is bootstrapped with `8`. -/
theorem c6_witness :
    brokerTransition actsNone (⟨7, [(("a"), [2])], [], true⟩ : BCore Nat)
      8 [] = (⟨8, [(("a"), [2])], [], true⟩, []) ∧
    (bSubscribe (brokerTransition actsNone
      (⟨7, [(("a"), [2])], [], true⟩ : BCore Nat) 8 []).1 [("z")] 6).2
      = [(6, 8)] :=
  c6_no_emit_still_commits actsNone
    (⟨7, [(("a"), [2])], [], true⟩ : BCore Nat) 8 [("z")] 6 rfl

/-! ### Claim C7 — writer identity stability -/

/-- C7 counterexample: two writers with the same field-name set and the
same value for every field name, but a different insertion order.
`objectUnpack` compares keys and values positionally, so the `useMemo`
dependency array differs and the writer is recomputed (`true`): it is
*not* identity-stable under shallow per-field equality alone. -/
theorem c7_counterexample :
    sameFieldsB [(("a"), 0), (("b"), 1)] [(("b"), 1), (("a"), 0)] = true ∧
    writerMemoStep
      ⟨objectUnpack [(("a"), 0), (("b"), 1)], [(("a"), 0), (("b"), 1)]⟩
      [(("b"), 1), (("a"), 0)]
      = (⟨objectUnpack [(("b"), 1), (("a"), 0)], [(("b"), 1), (("a"), 0)]⟩,
          true) := by decide

/-- C7 (amended): the writer exposed by write-only access is
identity-stable (cached value returned, not marked changed) exactly when
the new writer has the same ordered field sequence — the same field
names with the same values in the same positions, as compared by
`objectUnpack` — as the cached one; any difference, including a mere
reordering of an otherwise equal field set, recomputes it. -/
theorem c7_writer_stability (w w' : Writer) :
    writerMemoStep ⟨objectUnpack w, w⟩ w' = (⟨objectUnpack w, w⟩, false)
      ↔ w' = w := by
  constructor
  · intro h
    by_cases hu : objectUnpack w' = objectUnpack w
    · exact objectUnpack_inj w' w hu
    · unfold writerMemoStep at h
      rw [if_neg hu] at h
      exact absurd (congrArg Prod.snd h) (by simp)
  · intro h
    subst h
    unfold writerMemoStep
    rw [if_pos rfl]

/-! ### Claim C8 — a throwing transition commits nothing -/

/-- C8: if the state-producing hook throws during the render — whatever
emissions were recorded before the throw — the exception propagates to
the caller and the engine core is left exactly as it was: prior
snapshot, registry and pending array are unchanged and no subscriber is
invoked; a subscriber registering afterwards is still bootstrapped with
the previously committed snapshot. -/
theorem c8_throw_no_partial_commit {S : Type} (acts : Acts) (c : BCore S)
    (emitted ids : List String) (cb : Nat) :
    brokerRun acts c emitted (Except.error ()) = (c, [], some ()) ∧
    (bSubscribe (brokerRun acts c emitted (Except.error ())).1 ids cb).2
      = [(cb, c.ref)] :=
  ⟨rfl, rfl⟩

/-! ### Claim C9 — unsubscribe idempotence -/

/-- C9 counterexample: callback `7` is registered twice under `"a"`
(duplicate registration is not prevented by `subscribe`); each
`unsubscribe` removes only the first remaining occurrence, so a second
`unsubscribe` changes the registry again — `unsubscribe` twice is not
the same as `unsubscribe` once. -/
theorem c9_counterexample :
    unsubscribe [("a")] 7 (unsubscribe [("a")] 7 [(("a"), [7, 7])])
      ≠ unsubscribe [("a")] 7 [(("a"), [7, 7])] := by decide

/-- C9 (amended): unsubscribing a callback that is not registered under
the identifier leaves the registry unchanged (the operation is total —
a silent no-op, never an error), and when the callback is registered at
most once under the identifier a second `unsubscribe` is a no-op, so
`unsubscribe; unsubscribe` equals a single `unsubscribe`.  With
duplicate registrations each call removes one further occurrence. -/
theorem c9_unsubscribe_idempotent (subs : Subs) (id : String) (cb : Nat) :
    (cb ∉ (subsLookup subs id).getD [] → unsubscribe [id] cb subs = subs) ∧
    (((subsLookup subs id).getD []).count cb ≤ 1 →
      unsubscribe [id] cb (unsubscribe [id] cb subs)
        = unsubscribe [id] cb subs) := by
  have hone : ∀ t : Subs, unsubscribe [id] cb t = unsubscribeOne t id cb :=
    fun t => rfl
  constructor
  · intro h
    rw [hone]
    exact unsubscribeOne_not_mem subs id cb h
  · intro h
    rw [hone, hone]
    apply unsubscribeOne_not_mem
    rw [unsubscribeOne_lookup_self subs id cb]
    intro hmem
    have h1 := List.count_erase_self cb ((subsLookup subs id).getD [])
    have h2 : 0 < (((subsLookup subs id).getD []).erase cb).count cb :=
      List.count_pos_iff.mpr hmem
    omega

/-- C9 witness: unsubscribing an unregistered token `7` leaves the
registry unchanged, and a double unsubscribe of the once-registered
token `5` equals a single one. -/
theorem c9_witness :
    unsubscribe [("a")] 7 [(("a"), [5])] = [(("a"), [5])] ∧
    unsubscribe [("a")] 5 (unsubscribe [("a")] 5 [(("a"), [5, 6])])
      = unsubscribe [("a")] 5 [(("a"), [5, 6])] :=
  ⟨(c9_unsubscribe_idempotent [(("a"), [5])] ("a") 7).1 (by decide),
    (c9_unsubscribe_idempotent [(("a"), [5, 6])] ("a") 5).2 (by decide)⟩

/-! ### Claim C10 — subscribe with an empty identifier list -/

/-- C10: `subscribe` with an empty identifier list registers the
callback under no identifier (the core is unchanged) yet still invokes
it synchronously exactly once with the current snapshot; and a callback
registered under no identifier at all is never invoked by any later
transition's notification pass, in either engine variant. -/
theorem c10_subscribe_empty {S : Type} (acts : Acts) (c : Core S)
    (cB : BCore S) (cb : Nat)
    (hfresh : ∀ id, cb ∉ (subsLookup c.subs id).getD [])
    (hfreshB : ∀ id, cb ∉ (subsLookup cB.subs id).getD []) :
    coreSubscribe c [] cb = (c, [(cb, c.ref)]) ∧
    bSubscribe cB [] cb = (cB, [(cb, cB.ref)]) ∧
    (∀ s emits x,
      (cb, x) ∉ (sbTransition acts (coreSubscribe c [] cb).1 s emits).2) ∧
    (∀ t emits x,
      (cb, x) ∉ (brokerTransition acts (bSubscribe cB [] cb).1 t emits).2) := by
  refine ⟨rfl, rfl, ?_, ?_⟩
  · intro s emits x hx
    obtain ⟨-, id0, -, hmem⟩ :=
      mem_notifyPass_trace acts s emits c.subs cb x hx
    exact hfresh id0 hmem
  · intro t emits x hx
    obtain ⟨-, id0, hmem⟩ :=
      mem_brokerTransition_trace acts cB t emits cb x hx
    exact hfreshB id0 hmem

/-- C10 witness: subscribing token `2` with no identifiers bootstraps it
once with the snapshot and registers it nowhere; later transitions
(including one replaying a stale pending array) never invoke it. -/
theorem c10_witness :
    coreSubscribe (⟨3, [(("a"), [1])]⟩ : Core Nat) [] 2
      = (⟨3, [(("a"), [1])]⟩, [(2, 3)]) ∧
    (2, 30) ∉ (sbTransition actsNone
      (coreSubscribe (⟨3, [(("a"), [1])]⟩ : Core Nat) [] 2).1 30 [("a")]).2 ∧
    (2, 40) ∉ (brokerTransition actsNone
      (bSubscribe (⟨4, [(("a"), [1])], [("a")], true⟩ : BCore Nat) [] 2).1
      40 []).2 := by
  have h := c10_subscribe_empty actsNone (⟨3, [(("a"), [1])]⟩ : Core Nat)
    (⟨4, [(("a"), [1])], [("a")], true⟩ : BCore Nat) 2
    (fun id => by
      by_cases hc : ("a" : String) = id
      · simp [subsLookup, hc]
      · simp [subsLookup, hc])
    (fun id => by
      by_cases hc : ("a" : String) = id
      · simp [subsLookup, hc]
      · simp [subsLookup, hc])
  exact ⟨h.1, h.2.2.1 30 [("a")] 30, h.2.2.2 40 [] 40⟩

end Herestate
